import Mathlib

/-!
# Verification of the qimi mount/exec orchestration core

Shallow embedding of the qimi repository's core logic:
* the DNS backup/restore protocol of `internal/exec` (`backupAndSetupResolvConf`,
  `restoreResolvConf`),
* the chroot namespace mount set and its teardown (`MountNamespaces`,
  `setupMountNamespace`, `CleanupMountNamespace`, `isMounted`),
* partition auto-selection (`GetPartitionDevice`, `findLargestPartition` of
  `internal/nbd`),
* the mount manager (`MountWithPartition`, `mountQemuImage`, `Unmount`,
  `disconnectNBD` of `internal/mount`).

Filesystem and external-tool effects are made explicit: file contents become
fields of explicit state records, and the outcome of each external command
(qemu-nbd, partprobe, mount, umount, lsblk, mkdir) is an input parameter, so
every control path of the Go code is represented.  Where the repository holds
two revisions of a file, the current (logger-instrumented) revision is the one
embedded, matching the line ranges the claims cite.
-/

namespace Qimi

/-! ## String helpers (models of Go's `strings` package operations)

Go strings are byte strings; Lean strings are unicode.  All paths and file
contents handled by the program are modelled as Lean strings, and the Go
byte-level operations `strings.HasPrefix`, `strings.Contains`,
`strings.HasSuffix`, `strings.TrimPrefix` become character-list operations,
which agree with the byte-level ones on valid UTF-8 input. -/

/-- `listHasPre p l` : `p` is a prefix of `l` (model of byte-prefix test). -/
def listHasPre : List Char → List Char → Bool
  | [], _ => true
  | _ :: _, [] => false
  | a :: as, b :: bs => a = b && listHasPre as bs

/-- `listContains needle hay` : `needle` occurs as a contiguous run in `hay`. -/
def listContains (needle : List Char) : List Char → Bool
  | [] => listHasPre needle []
  | c :: rest => listHasPre needle (c :: rest) || listContains needle rest

/-- Model of Go `strings.HasPrefix s pre`. -/
def strStartsWith (s pre : String) : Bool :=
  listHasPre pre.toList s.toList

/-- Model of Go `strings.HasSuffix s suf`. -/
def strEndsWith (s suf : String) : Bool :=
  listHasPre suf.toList.reverse s.toList.reverse

/-- Model of Go `strings.Contains s sub`. -/
def strContains (s sub : String) : Bool :=
  listContains sub.toList s.toList

/-- Model of Go `strings.TrimPrefix s pre`. -/
def trimLeading (s pre : String) : String :=
  if strStartsWith s pre then ⟨s.toList.drop pre.toList.length⟩ else s

/-- Greedy left-to-right split on a nonempty separator, fuelled by the input
length (each step consumes at least one character). -/
def splitOnFuel (sep : List Char) : Nat → List Char → List Char → List (List Char)
  | _, [], acc => [acc.reverse]
  | 0, hay, acc => [acc.reverse ++ hay]
  | fuel + 1, c :: rest, acc =>
      if listHasPre sep (c :: rest) then
        acc.reverse :: splitOnFuel sep fuel ((c :: rest).drop sep.length) []
      else splitOnFuel sep fuel rest (c :: acc)

/-- Model of Go `strings.Split s sep` for nonempty `sep` (the only way the
program uses it). -/
def strSplitOn (s sep : String) : List String :=
  if sep = "" then [s]
  else (splitOnFuel sep.toList s.toList.length s.toList []).map (fun l => ⟨l⟩)

/-- Model of Go `strings.ToLower` (ASCII folding, which suffices for the
filesystem-type strings the program compares). -/
def lowerStr (s : String) : String := ⟨s.toList.map Char.toLower⟩

/-- Model of Go `strings.TrimSpace`. -/
def trimStr (s : String) : String :=
  ⟨((s.toList.dropWhile Char.isWhitespace).reverse.dropWhile Char.isWhitespace).reverse⟩

/-! ## DNS backup/restore protocol

From `internal/exec` (current revision): `backupAndSetupResolvConf` and
`restoreResolvConf`.  The guest's `<mountPoint>/etc/resolv.conf` can be
absent, a regular file, or a symlink; the two backup slots are the files at
`getBackupPath` / `getBackupSymlinkPath` (hash-named, deterministic per mount
point), modelled as `Option String` (`none` = the slot file does not exist). -/

/-- State of one filesystem path: absent, a regular file with the given
bytes, or a symlink with the given target string. -/
inductive FileState where
  | absent : FileState
  | file (content : String) : FileState
  | symlink (target : String) : FileState
deriving DecidableEq, Repr

/-- The state touched by the DNS protocol for one mount point: the guest
`resolv.conf` path and the two backup slots. -/
structure DnsState where
  guest : FileState
  contentSlot : Option String
  symlinkSlot : Option String
deriving DecidableEq, Repr

/-- Environment of a setup call: the host `/etc/resolv.conf` content as read
through `filepath.EvalSymlinks` + `os.ReadFile` (`none` = unreadable), and
whether `os.Stat` on a guest symlink with the given target resolves. -/
structure DnsEnv where
  hostResolv : Option String
  linkResolves : String → Bool

/-- Backup phase of `backupAndSetupResolvConf` (the block guarded by
`os.Stat(backupPath); os.IsNotExist(err)`): runs only while the content slot
is missing; a symlink original records its target in the symlink slot, a
regular file records its bytes in the content slot, an absent original
records a zero-byte marker in the content slot. -/
def backupPhase (s : DnsState) : DnsState :=
  if s.contentSlot.isNone then
    match s.guest with
    | .symlink t => { s with symlinkSlot := some t }
    | .file c => { s with contentSlot := some c }
    | .absent => { s with contentSlot := some "" }
  else s

/-- `os.Stat(target)` succeeds: follows a symlink, so a symlink resolves per
the environment. -/
def statTargetExists (env : DnsEnv) : FileState → Bool
  | .absent => false
  | .file _ => true
  | .symlink t => env.linkResolves t

/-- `os.WriteFile(target, c, 0644)` on the guest path: writing to a path that
is currently a symlink follows the link, so the path itself stays a symlink;
otherwise the path becomes a regular file with the new bytes. -/
def writeThrough (g : FileState) (c : String) : FileState :=
  match g with
  | .symlink t => .symlink t
  | _ => .file c

/-- Write phase of `backupAndSetupResolvConf`: remove the target when
`os.Stat` sees it, then write the new content. -/
def writePhase (env : DnsEnv) (s : DnsState) (content : String) : DnsState :=
  let s1 := if statTargetExists env s.guest then { s with guest := .absent } else s
  { s1 with guest := writeThrough s1.guest content }

/-! ## Model of Go `net.ParseIP` acceptance

`backupAndSetupResolvConf` validates each supplied nameserver with
`net.ParseIP`.  Go (≥1.17) dispatches on the first of `.`, `:`, `%` in the
string: `.` selects the strict dotted-quad IPv4 grammar (four decimal fields,
each ≤ 255, at most three digits, no leading zero), `:` the RFC 4291 IPv6
grammar (hex groups of 1–4 digits, one optional `::` elision, an optional
embedded IPv4 tail counting as two groups, no zone), and anything else is
rejected. -/

def isDigitCh (c : Char) : Bool := '0' ≤ c && c ≤ '9'

def isHexCh (c : Char) : Bool :=
  isDigitCh c || ('a' ≤ c && c ≤ 'f') || ('A' ≤ c && c ≤ 'F')

/-- One decimal field of a dotted-quad IPv4 literal. -/
def validV4Field (s : String) : Bool :=
  let cs := s.toList
  decide (cs ≠ []) && cs.all isDigitCh && decide (cs.length ≤ 3) &&
    (decide (cs.length = 1) || decide (cs.head? ≠ some '0')) &&
    decide ((cs.foldl (fun n c => n * 10 + (c.toNat - 48)) 0) ≤ 255)

/-- Dotted-quad IPv4 literal. -/
def validV4 (s : String) : Bool :=
  let fields := strSplitOn s "."
  decide (fields.length = 4) && fields.all validV4Field

/-- One hex group of an IPv6 literal. -/
def validHexGroup (s : String) : Bool :=
  let cs := s.toList
  decide (cs ≠ []) && decide (cs.length ≤ 4) && cs.all isHexCh

/-- Checks a colon-separated run of IPv6 groups and counts the 16-bit units it
covers; the last group may be an embedded IPv4 literal (two units) when
`allowV4` is set.  Returns `none` when some group is malformed. -/
def v6Groups (allowV4 : Bool) : List String → Option Nat
  | [] => some 0
  | [g] =>
      if allowV4 && strContains g "." then (if validV4 g then some 2 else none)
      else if validHexGroup g then some 1 else none
  | g :: rest =>
      if validHexGroup g then (v6Groups allowV4 rest).map (· + 1) else none

/-- IPv6 literal (no zone): either eight units with no elision, or a `::`
splitting the string in two sides totalling at most seven units. -/
def validV6 (s : String) : Bool :=
  if strContains s "%" then false
  else
    match strSplitOn s "::" with
    | [one] =>
        match v6Groups true (strSplitOn one ":") with
        | some n => decide (n = 8)
        | none => false
    | [l, r] =>
        let lg := if l = "" then some 0 else v6Groups false (strSplitOn l ":")
        let rg := if r = "" then some 0 else v6Groups true (strSplitOn r ":")
        match lg, rg with
        | some a, some b => decide (a + b ≤ 7)
        | _, _ => false
    | _ => false

/-- Model of `net.ParseIP(s) != nil`. -/
def isValidIP (s : String) : Bool :=
  match s.toList.find? (fun c => c = '.' || c = ':' || c = '%') with
  | some '.' => validV4 s
  | some ':' => validV6 s
  | _ => false

/-- Errors surfaced by `backupAndSetupResolvConf`. -/
inductive SetupError where
  | invalidNameserver (ns : String) : SetupError
  | hostResolvUnreadable : SetupError
deriving DecidableEq, Repr

/-- Result of a setup call: the Go function mutates the filesystem and then
returns an error value, so both the post-state and the error are reported. -/
structure SetupResult where
  state : DnsState
  err : Option SetupError

/-- The nameserver-validation loop: appends validated entries in order and
fails on the first entry `net.ParseIP` rejects, naming it. -/
def validateNameservers : List String → Except String (List String)
  | [] => .ok []
  | ns :: rest =>
      if isValidIP ns then
        match validateNameservers rest with
        | .ok l => .ok (ns :: l)
        | .error e => .error e
      else .error ns

/-- `backupAndSetupResolvConf(mountPoint, nameservers)`: backup phase first
(see `backupPhase`), then the content is computed — from the validated
nameserver list when one is supplied, else from the host's resolv.conf — and
finally the target is removed (when `os.Stat` sees it) and rewritten.
Directory creation (`/tmp/qimi/files`, `<mountPoint>/etc`) and the backup
reads/writes are modelled as succeeding; a validation failure or an
unreadable host resolv.conf returns after the backup phase with the target
untouched. -/
def backupAndSetupResolvConf (env : DnsEnv) (s : DnsState) (nameservers : List String) :
    SetupResult :=
  let s1 := backupPhase s
  if nameservers.length > 0 then
    match validateNameservers nameservers with
    | .error ns => ⟨s1, some (.invalidNameserver ns)⟩
    | .ok valid =>
        let content :=
          String.intercalate "\n" (valid.map (fun ns => "nameserver " ++ ns)) ++ "\n"
        ⟨writePhase env s1 content, none⟩
  else
    match env.hostResolv with
    | none => ⟨s1, some .hostResolvUnreadable⟩
    | some content => ⟨writePhase env s1 content, none⟩

/-- Content-slot half of `restoreResolvConf`: a missing slot or a zero-byte
slot removes the current target (the zero-byte marker means the original was
absent); otherwise the recorded bytes are written back. -/
def restoreFromContent (s : DnsState) : DnsState :=
  match s.contentSlot with
  | none => { s with guest := .absent }
  | some c =>
      if c.length = 0 then { s with guest := .absent }
      else { s with guest := writeThrough s.guest c }

/-- `restoreResolvConf(mountPoint)`: a non-empty symlink slot takes priority —
remove the target and recreate the recorded symlink; otherwise restore from
the content slot. -/
def restoreResolvConf (s : DnsState) : DnsState :=
  match s.symlinkSlot with
  | some t => if t.length > 0 then { s with guest := .symlink t } else restoreFromContent s
  | none => restoreFromContent s

/-! ## Namespace mount set, setup and teardown

From `internal/exec` (current revision): `MountNamespaces`,
`setupMountNamespace`, `CleanupMountNamespace`, `isMounted`. -/

/-- One entry of the fixed namespace mount set. -/
structure MountNamespace where
  source : String
  target : String
  fstype : String
  flags : Nat
deriving DecidableEq, Repr

/-- The fixed namespace mount set, in setup order. -/
def MountNamespaces : List MountNamespace :=
  [⟨"none", "/proc", "proc", 0⟩,
   ⟨"none", "/sys", "sysfs", 0⟩,
   ⟨"/dev", "/dev", "rbind", 0⟩,
   ⟨"tmpfs", "/tmp", "tmpfs", 0⟩]

/-- The mount command issued for one entry (`--bind`, `--rbind`, or `-t`). -/
def mountCmdArgs (m : MountNamespace) (target : String) : List String :=
  if m.fstype = "bind" then ["mount", "--bind", m.source, target]
  else if m.fstype = "rbind" then ["mount", "--rbind", m.source, target]
  else ["mount", "-t", m.fstype, m.source, target]

/-- `setupMountNamespace(mountPoint)`: for each entry in order, the target
directory `mountPoint + entry.target` is created (a `MkdirAll` failure skips
only that entry) and the matching mount command is run; mount failures are
logged and ignored, so the call's observable behaviour is the ordered list of
issued mount commands, and it always returns nil. -/
def setupMountNamespace (mkdirOk : String → Bool) (mountPoint : String) :
    List (List String) :=
  MountNamespaces.foldl
    (fun acc m =>
      let target := mountPoint ++ m.target
      if mkdirOk target then acc ++ [mountCmdArgs m target] else acc)
    []

/-- `isMounted(path)`: reads `/proc/mounts` (`none` = the read failed, which
reports not-mounted) and searches each line for `" " + path + " "`. -/
def isMounted (mountsFile : Option String) (path : String) : Bool :=
  match mountsFile with
  | none => false
  | some content =>
      (strSplitOn content "\n").any (fun line => strContains line (" " ++ path ++ " "))

/-- Errors of the mount/exec components. -/
inductive QErr where
  | invalidMountPoint : QErr
  | unsafeMountPoint : QErr
  | deviceExhausted : QErr
  | connectFailed : QErr
  | probeFailed : QErr
  | partitionFailed : QErr
  | mountFailed : QErr
  | saveMetaFailed : QErr
  | metadataMismatch : QErr
  | readDirFailed : QErr
  | imageNotFound : QErr
deriving DecidableEq, Repr

/-- Per-target outcomes of the external `umount` / `umount -l` commands. -/
structure CleanupEnv where
  stdOk : String → Bool
  lazyOk : String → Bool

/-- Observable behaviour of one `CleanupMountNamespace` run: the targets for
which an unmount command was issued, in order, and the targets where both the
standard and the lazy unmount failed (warned, never fatal). -/
structure CleanupRun where
  issued : List String
  failed : List String
deriving DecidableEq, Repr

/-- The slash-terminated mount point used for target concatenation. -/
def slashTerm (mountPoint : String) : String :=
  if strEndsWith mountPoint "/" then mountPoint else mountPoint ++ "/"

/-- The rejection conditions checked before any unmount: the spot checks on
`""`, `"/"`, `"/dev"`, `"/proc"`, `"/sys"`, and the allow-list requirement of
a `/tmp/` or `/mnt/` prefix. -/
def mountPointRejected (mountPoint : String) : Bool :=
  (mountPoint = "" || mountPoint = "/" || mountPoint = "/dev" ||
    mountPoint = "/proc" || mountPoint = "/sys") ||
  (!strStartsWith mountPoint "/tmp/" && !strStartsWith mountPoint "/mnt/")

/-- Loop body of `CleanupMountNamespace` for one entry: the per-entry target
is `slashTerm mountPoint ++ TrimPrefix(entry.target, "/")`; a target that is
not prefixed by the mount point is skipped with a warning, an unmounted
target is skipped, and otherwise `umount` is issued, falling back to
`umount -l`, with persistent failure only warned. -/
def cleanupStep (env : CleanupEnv) (mountsFile : Option String) (mp : String)
    (acc : CleanupRun) (m : MountNamespace) : CleanupRun :=
  let target := mp ++ trimLeading m.target "/"
  if !strStartsWith target mp then acc
  else if !isMounted mountsFile target then acc
  else
    let acc1 : CleanupRun := ⟨acc.issued ++ [target], acc.failed⟩
    if env.stdOk target then acc1
    else if env.lazyOk target then acc1
    else ⟨acc1.issued, acc1.failed ++ [target]⟩

/-- `CleanupMountNamespace(mountPoint)`: reject unsafe mount points before
issuing any unmount, then walk `MountNamespaces` in reverse order, processing
every entry regardless of earlier per-entry failures. -/
def CleanupMountNamespace (env : CleanupEnv) (mountsFile : Option String)
    (mountPoint : String) : Except QErr CleanupRun :=
  if mountPoint = "" || mountPoint = "/" || mountPoint = "/dev" ||
      mountPoint = "/proc" || mountPoint = "/sys" then
    .error .invalidMountPoint
  else if !strStartsWith mountPoint "/tmp/" && !strStartsWith mountPoint "/mnt/" then
    .error .unsafeMountPoint
  else
    let mp := slashTerm mountPoint
    .ok (MountNamespaces.reverse.foldl (cleanupStep env mountsFile mp) ⟨[], []⟩)

/-! ## Mount manager

From `internal/mount` (current revision): `MountWithPartition`,
`mountQemuImage`, `Unmount`, `disconnectNBD`.  Host-side resources touched by
these functions are tracked explicitly; each fallible external step's outcome
is an input. -/

/-- Model of Go `filepath.Base`: the last element after trimming trailing
slashes; `"/"` for all-slash input and `"."` for the empty string. -/
def baseName (p : String) : String :=
  if p = "" then "."
  else
    match ((strSplitOn p "/").filter (fun part => part ≠ "")).getLast? with
    | some b => b
    | none => "/"

/-- The `Mounter` receiver: its mount and metadata directories
(`/tmp/qimi/mounts`, `/tmp/qimi/metadata` as created by `New`). -/
structure Mounter where
  mountDir : String
  metadataDir : String
deriving DecidableEq, Repr

def defaultMounter : Mounter := ⟨"/tmp/qimi/mounts", "/tmp/qimi/metadata"⟩

/-- Host-side state the mount manager mutates: the connected NBD devices, the
device-association metadata files (path ↦ stored device string), the created
mount-point directories, the mount points with a mounted filesystem, and the
mount points whose DNS backup files exist (`CleanupBackupFiles` removes the
hash-named pair for one mount point, keyed here by the mount point itself
since the hash is deterministic and injective per mount point). -/
structure HostState where
  connected : List String
  metadataFiles : List (String × String)
  mountDirs : List String
  mounted : List String
  dnsBackups : List String
deriving DecidableEq, Repr

/-- Lookup in the modelled metadata directory. -/
def lookupFile (fs : List (String × String)) (k : String) : Option String :=
  (fs.find? (fun e => e.1 = k)).map (fun e => e.2)

/-- The device-association file path for a mount point:
`metadataDir/Base(mountPoint).nbd`. -/
def nbdFilePath (m : Mounter) (mountPoint : String) : String :=
  m.metadataDir ++ "/" ++ baseName mountPoint ++ ".nbd"

/-- `disconnectNBD(mountPoint)`: read the association file; a missing file
warns and returns the "NBD metadata file mismatch" error WITHOUT touching any
device; otherwise the recorded device is disconnected (`qemu-nbd
--disconnect`, modelled as succeeding) and the file removed. -/
def disconnectNBD (m : Mounter) (st : HostState) (mountPoint : String) :
    HostState × Option QErr :=
  let f := nbdFilePath m mountPoint
  match lookupFile st.metadataFiles f with
  | none => (st, some .metadataMismatch)
  | some data =>
      let dev := trimStr data
      ({ st with
          connected := st.connected.filter (fun d => d ≠ dev),
          metadataFiles := st.metadataFiles.filter (fun e => e.1 ≠ f) }, none)

/-- `Unmount(mountPoint)`: best-effort `umount` (error ignored), then
`disconnectNBD` with its error IGNORED, then `CleanupBackupFiles`; the
mount-point directory is read (`readDirEmpty`: `none` = the read failed,
`some b` = the directory is empty iff `b`) and removed only when empty, a
non-empty directory being kept with a warning. -/
def Unmount (m : Mounter) (readDirEmpty : Option Bool) (st : HostState)
    (mountPoint : String) : HostState × Option QErr :=
  let st1 := { st with mounted := st.mounted.filter (fun p => p ≠ mountPoint) }
  let st2 := (disconnectNBD m st1 mountPoint).1
  let st3 := { st2 with dnsBackups := st2.dnsBackups.filter (fun p => p ≠ mountPoint) }
  match readDirEmpty with
  | none => (st3, some .readDirFailed)
  | some true =>
      ({ st3 with mountDirs := st3.mountDirs.filter (fun p => p ≠ mountPoint) }, none)
  | some false => (st3, none)

/-- Decidable equality for `Except` results, used to evaluate concrete
runs. -/
instance instDecEqExcept {ε α : Type} [DecidableEq ε] [DecidableEq α] :
    DecidableEq (Except ε α) := fun x y =>
  match x, y with
  | .ok a, .ok b =>
      if h : a = b then isTrue (by rw [h]) else isFalse (fun hc => h (Except.ok.inj hc))
  | .error a, .error b =>
      if h : a = b then isTrue (by rw [h]) else isFalse (fun hc => h (Except.error.inj hc))
  | .ok _, .error _ => isFalse (fun hc => Except.noConfusion hc)
  | .error _, .ok _ => isFalse (fun hc => Except.noConfusion hc)

/-- Outcomes of the external steps of one `Mount` invocation. -/
structure MountEnv where
  freeDevice : Option String
  connectOk : Bool
  probeOk : Bool
  partitionResult : Except Unit String
  mountOk : Bool
  writeMetaOk : Bool
  readDirEmpty : Option Bool
deriving Repr

/-- `mountQemuImage(imagePath, mountPoint, ...)`: find a free device, connect
the image, probe partitions, select a partition, mount it, and persist the
device-association file.  Every failure after a step calls
`m.disconnectNBD(nbdDevice)` — passing the DEVICE PATH where `disconnectNBD`
expects a mount point — or, for the metadata-write failure, `m.Unmount`. -/
def mountQemuImage (m : Mounter) (env : MountEnv) (st : HostState)
    (mountPoint : String) : HostState × Option QErr :=
  match env.freeDevice with
  | none => (st, some .deviceExhausted)
  | some nbdDevice =>
      if !env.connectOk then
        ((disconnectNBD m st nbdDevice).1, some .connectFailed)
      else
        let stC := { st with connected := nbdDevice :: st.connected }
        if !env.probeOk then
          ((disconnectNBD m stC nbdDevice).1, some .probeFailed)
        else
          match env.partitionResult with
          | .error _ => ((disconnectNBD m stC nbdDevice).1, some .partitionFailed)
          | .ok _partition =>
              if !env.mountOk then
                ((disconnectNBD m stC nbdDevice).1, some .mountFailed)
              else
                let stM := { stC with mounted := mountPoint :: stC.mounted }
                if env.writeMetaOk then
                  ({ stM with
                      metadataFiles :=
                        (nbdFilePath m mountPoint, nbdDevice) :: stM.metadataFiles },
                    none)
                else
                  ((Unmount m env.readDirEmpty stM mountPoint).1, some .saveMetaFailed)

/-- `MountWithPartition(imagePath, ...)`: resolve the absolute path (the
input is taken already absolute), fail if the image is missing, create the
deterministic mount-point directory `mountDir/Base(image).mount`, run
`mountQemuImage`, and on its failure remove the created directory and return
the error. -/
def MountWithPartition (m : Mounter) (env : MountEnv) (imageExists : Bool)
    (st : HostState) (absPath : String) : HostState × Except QErr String :=
  if !imageExists then (st, .error .imageNotFound)
  else
    let mountPoint := m.mountDir ++ "/" ++ baseName absPath ++ ".mount"
    let st1 := { st with mountDirs := mountPoint :: st.mountDirs }
    match mountQemuImage m env st1 mountPoint with
    | (st2, some e) =>
        ({ st2 with mountDirs := st2.mountDirs.filter (fun p => p ≠ mountPoint) }, .error e)
    | (st2, none) => (st2, .ok mountPoint)

/-! ## Partition discovery and selection

From `internal/nbd`: `GetPartitionDevice` and `findLargestPartition`.  The
partition set discovered by `detectSuitablePartitions` (parsed lsblk output)
and the byte-size map parsed from `lsblk -b` are inputs; a failing or
uninformative lsblk size query is the all-`none` size map, both of which take
`findLargestPartition`'s error path in the Go code. -/

/-- `PartitionInfo{Number, Path, FSType}`. -/
structure PartitionInfo where
  number : Nat
  path : String
  fstype : String
deriving DecidableEq, Repr

/-- The root-like filesystem types checked with `strings.EqualFold`. -/
def rootFSTypes : List String := ["ext4", "ext3", "ext2", "xfs", "btrfs", "f2fs"]

/-- Model of `strings.EqualFold` (ASCII case folding suffices for the
filesystem-type strings compared here). -/
def eqFold (a b : String) : Bool := lowerStr a == lowerStr b

def isRootLike (p : PartitionInfo) : Bool :=
  rootFSTypes.any (fun r => eqFold p.fstype r)

/-- The selection loop of `findLargestPartition`: walk the candidates in
order keeping the strictly largest size seen so far (`size > largestSize`),
starting from `largestSize = -1`; candidates without a size entry are
skipped. -/
def flpLoop (sizes : String → Option Int) :
    List PartitionInfo → Int × PartitionInfo → Int × PartitionInfo
  | [], acc => acc
  | p :: rest, (bs, bp) =>
      match sizes p.path with
      | some s => if s > bs then flpLoop sizes rest (s, p) else flpLoop sizes rest (bs, bp)
      | none => flpLoop sizes rest (bs, bp)

/-- `findLargestPartition(partitions)`: errors on an empty candidate list and
when no candidate's size could be determined (`largestSize == -1`). -/
def findLargestPartition (sizes : String → Option Int) (partitions : List PartitionInfo) :
    Except Unit PartitionInfo :=
  if partitions.isEmpty then .error ()
  else
    let r := flpLoop sizes partitions (-1, ⟨0, "", ""⟩)
    if r.1 = -1 then .error () else .ok r.2

/-- Errors of partition selection. -/
inductive SelectError where
  | notFound (num : Nat) : SelectError
  | ambiguousSelection (fstype : String) (candidates : List PartitionInfo) : SelectError
deriving DecidableEq, Repr

/-- `GetPartitionDevice(nbd, partitionNum)`: a requested number is validated
against the existing device nodes; auto-detection works on the discovered
set `detected = (partitions, deviceHasFS)`: no partitions → the base device;
one → it; several → prefer a unique root-like partition, tie-break same-typed
root-like partitions by largest size (Ambiguous error naming all candidates
when sizes are undetermined), pick the first (most preferred) among
differently-typed root-like ones, else the first discovered partition. -/
def GetPartitionDevice (nbd : String) (partitionNum : Nat)
    (partitionExists : Nat → Bool) (detected : List PartitionInfo × Bool)
    (sizes : String → Option Int) : Except SelectError String :=
  if partitionNum > 0 then
    if partitionExists partitionNum then .ok (nbd ++ "p" ++ toString partitionNum)
    else .error (.notFound partitionNum)
  else
    match detected.1 with
    | [] => .ok nbd
    | [single] => .ok single.path
    | p0 :: p1 :: rest =>
        let rootPartitions := (p0 :: p1 :: rest).filter isRootLike
        match rootPartitions with
        | [r] => .ok r.path
        | r0 :: r1 :: rrest =>
            let firstType := lowerStr r0.fstype
            if (r1 :: rrest).all (fun p => lowerStr p.fstype == firstType) then
              match findLargestPartition sizes (r0 :: r1 :: rrest) with
              | .ok largest => .ok largest.path
              | .error _ => .error (.ambiguousSelection firstType (r0 :: r1 :: rrest))
            else .ok r0.path
        | [] => .ok p0.path

/-! ## Helper lemmas -/

theorem listHasPre_append (p x : List Char) : listHasPre p (p ++ x) = true := by
  induction p with
  | nil => rfl
  | cons a as ih => simp [listHasPre, ih]

theorem strStartsWith_append (a b : String) : strStartsWith (a ++ b) a = true := by
  have h : (a ++ b).toList = a.toList ++ b.toList := by
    simp [String.toList]
  simp [strStartsWith, h, listHasPre_append]

theorem strLength_zero_iff (s : String) : s.length = 0 ↔ s = "" := by
  cases s with
  | mk data =>
      constructor
      · intro h
        have hd : data = [] := List.length_eq_zero.mp h
        subst hd
        rfl
      · intro h
        rw [h]
        rfl

theorem backupPhase_guest (s : DnsState) : (backupPhase s).guest = s.guest := by
  obtain ⟨g, cs, ss⟩ := s
  cases cs <;> cases g <;> rfl

theorem backupPhase_of_contentSlot_isSome (s : DnsState) (h : s.contentSlot ≠ none) :
    backupPhase s = s := by
  obtain ⟨g, cs, ss⟩ := s
  cases cs with
  | none => exact absurd rfl h
  | some c => cases g <;> rfl

theorem writePhase_contentSlot (env : DnsEnv) (s : DnsState) (c : String) :
    (writePhase env s c).contentSlot = s.contentSlot := by
  unfold writePhase
  cases statTargetExists env s.guest <;> rfl

theorem writePhase_symlinkSlot (env : DnsEnv) (s : DnsState) (c : String) :
    (writePhase env s c).symlinkSlot = s.symlinkSlot := by
  unfold writePhase
  cases statTargetExists env s.guest <;> rfl

theorem setup_contentSlot (env : DnsEnv) (s : DnsState) (ns : List String) :
    (backupAndSetupResolvConf env s ns).state.contentSlot = (backupPhase s).contentSlot := by
  unfold backupAndSetupResolvConf
  split
  · split <;> simp [writePhase_contentSlot]
  · cases env.hostResolv <;> simp [writePhase_contentSlot]

theorem setup_symlinkSlot (env : DnsEnv) (s : DnsState) (ns : List String) :
    (backupAndSetupResolvConf env s ns).state.symlinkSlot = (backupPhase s).symlinkSlot := by
  unfold backupAndSetupResolvConf
  split
  · split <;> simp [writePhase_symlinkSlot]
  · cases env.hostResolv <;> simp [writePhase_symlinkSlot]

theorem validateNameservers_error_of_mem (ns : List String) (n : String)
    (hmem : n ∈ ns) (hbad : isValidIP n = false) :
    ∃ m, validateNameservers ns = .error m := by
  induction ns with
  | nil => cases hmem
  | cons a rest ih =>
      unfold validateNameservers
      cases ha : isValidIP a with
      | false => exact ⟨a, by simp [ha]⟩
      | true =>
          rcases List.mem_cons.mp hmem with rfl | hrest
          · rw [ha] at hbad; cases hbad
          · rcases ih hrest with ⟨m, hm⟩
            exact ⟨m, by simp [ha, hm]⟩

/-! ## Claim theorems: the DNS protocol -/

/-- A concrete setup environment: readable host resolv.conf, all guest
symlinks resolving. -/
def env5 : DnsEnv := ⟨some "nameserver 9.9.9.9\n", fun _ => true⟩

/-- C3 counterexample: an initially EMPTY regular `resolv.conf` round-trips
to ABSENT, not to the empty file — the zero-byte content slot doubles as the
"no original" marker, so the claim's file case fails at the empty byte
string. -/
theorem dns_roundtrip_empty_file_counterexample :
    (restoreResolvConf (backupPhase ⟨.file "", none, none⟩)).guest = .absent ∧
    FileState.absent ≠ FileState.file "" := by decide

/-- C3 (amended): for a mount point with no pre-existing backup slots, backup
followed by restore with no intervening write reproduces the initial guest
state exactly in the absent case, the file case with nonempty bytes, and the
symlink case with a nonempty target. -/
theorem dns_backup_restore_roundtrip (g : FileState)
    (h : match g with
         | .file c => c ≠ ""
         | .symlink t => t ≠ ""
         | .absent => True) :
    (restoreResolvConf (backupPhase ⟨g, none, none⟩)).guest = g := by
  cases g with
  | absent => decide
  | file c =>
      have hc : c.length ≠ 0 := fun hz => h ((strLength_zero_iff c).mp hz)
      simp [backupPhase, restoreResolvConf, restoreFromContent, writeThrough, hc]
  | symlink t =>
      have ht : 0 < t.length := by
        have hz : t.length ≠ 0 := fun hz => h ((strLength_zero_iff t).mp hz)
        omega
      simp [backupPhase, restoreResolvConf, ht]

theorem dns_backup_restore_roundtrip_witness :
    (restoreResolvConf (backupPhase ⟨.file "nameserver 1.1.1.1\n", none, none⟩)).guest
      = .file "nameserver 1.1.1.1\n" :=
  dns_backup_restore_roundtrip (.file "nameserver 1.1.1.1\n") (by decide)

/-- C5 counterexample: when the first setup call finds a symlink it fills
only the symlink slot, so a second setup call against the same mount point
still sees no content slot and writes a NEW backup (of the file the first
call itself wrote) — the backup record is not written at most once. -/
theorem second_setup_writes_backup_again :
    (backupAndSetupResolvConf env5
        ⟨.symlink "/run/systemd/resolve/stub-resolv.conf", none, none⟩
        ["1.1.1.1"]).state.contentSlot = none ∧
    (backupAndSetupResolvConf env5
        (backupAndSetupResolvConf env5
          ⟨.symlink "/run/systemd/resolve/stub-resolv.conf", none, none⟩
          ["1.1.1.1"]).state
        ["1.1.1.1"]).state.contentSlot = some "nameserver 1.1.1.1\n" := by decide

/-- C5 (amended): once the content backup slot exists, any later setup call —
whatever the host resolver content, nameserver list, or current guest state —
leaves both backup slots unchanged; only a first call whose original was a
symlink (filling just the symlink slot) leaves room for one further
content-slot write. -/
theorem setup_skips_backup_once_content_slot_exists (env : DnsEnv) (s : DnsState)
    (ns : List String) (h : s.contentSlot ≠ none) :
    (backupAndSetupResolvConf env s ns).state.contentSlot = s.contentSlot ∧
    (backupAndSetupResolvConf env s ns).state.symlinkSlot = s.symlinkSlot := by
  have hb := backupPhase_of_contentSlot_isSome s h
  exact ⟨by rw [setup_contentSlot, hb], by rw [setup_symlinkSlot, hb]⟩

theorem setup_skips_backup_witness :
    (backupAndSetupResolvConf env5 ⟨.absent, some "orig", none⟩ ["8.8.8.8"]).state.contentSlot
        = some "orig" ∧
    (backupAndSetupResolvConf env5 ⟨.absent, some "orig", none⟩ ["8.8.8.8"]).state.symlinkSlot
        = none :=
  setup_skips_backup_once_content_slot_exists env5 ⟨.absent, some "orig", none⟩ ["8.8.8.8"]
    (by decide)

/-- C7 counterexample: a call with an invalid nameserver fails, but it is not
true that it "writes no file": the backup phase runs before validation and
here creates the zero-byte backup marker (content slot goes from missing to
present). -/
theorem invalid_nameserver_writes_backup_marker :
    (backupAndSetupResolvConf env5 ⟨.absent, none, none⟩ ["not-an-ip"]).err
        = some (.invalidNameserver "not-an-ip") ∧
    (backupAndSetupResolvConf env5 ⟨.absent, none, none⟩ ["not-an-ip"]).state.contentSlot
        = some "" := by decide

/-- C7 (amended): a nameserver list containing an entry that is not a valid
IP literal makes the call fail with an invalid-nameserver error, and the
guest's `resolv.conf` is left unmodified (no resolv.conf content is written);
only the pre-validation backup phase may have created backup files. -/
theorem invalid_nameserver_fails_without_writing_target (env : DnsEnv) (s : DnsState)
    (ns : List String) (h : ∃ n, n ∈ ns ∧ isValidIP n = false) :
    (∃ m, (backupAndSetupResolvConf env s ns).err = some (.invalidNameserver m)) ∧
    (backupAndSetupResolvConf env s ns).state.guest = s.guest := by
  rcases h with ⟨n, hmem, hbad⟩
  have hlen : ns.length > 0 := List.length_pos.mpr (List.ne_nil_of_mem hmem)
  rcases validateNameservers_error_of_mem ns n hmem hbad with ⟨m, hm⟩
  unfold backupAndSetupResolvConf
  simp [hlen, hm, backupPhase_guest]

theorem invalid_nameserver_fails_witness :
    (∃ m, (backupAndSetupResolvConf env5 ⟨.file "orig", none, none⟩ ["bad"]).err
        = some (.invalidNameserver m)) ∧
    (backupAndSetupResolvConf env5 ⟨.file "orig", none, none⟩ ["bad"]).state.guest
        = .file "orig" :=
  invalid_nameserver_fails_without_writing_target env5 ⟨.file "orig", none, none⟩ ["bad"]
    ⟨"bad", by decide⟩

/-! ## Claim theorems: the mount manager -/

theorem disconnectNBD_mountDirs (m : Mounter) (st : HostState) (mp : String) :
    (disconnectNBD m st mp).1.mountDirs = st.mountDirs := by
  cases hl : lookupFile st.metadataFiles (nbdFilePath m mp) <;>
    simp [disconnectNBD, hl]

/-- C2 counterexample: `Unmount` on a mount point whose device-association
record is missing returns success (`nil`), not a MetadataMismatch error — the
error produced inside `disconnectNBD` is discarded (`// Ignore error`). -/
theorem unmount_missing_record_counterexample :
    lookupFile (HostState.mk [] [] ["/tmp/qimi/mounts/img.qcow2.mount"] [] []).metadataFiles
        (nbdFilePath defaultMounter "/tmp/qimi/mounts/img.qcow2.mount") = none ∧
    (Unmount defaultMounter (some true)
        ⟨[], [], ["/tmp/qimi/mounts/img.qcow2.mount"], [], []⟩
        "/tmp/qimi/mounts/img.qcow2.mount").2 = none := by decide

/-- C2 (amended): when the device-association record is missing, the helper
`disconnectNBD` does return the MetadataMismatch error, but `Unmount` ignores
it and reports success whenever the directory read succeeds. -/
theorem disconnectNBD_reports_metadata_mismatch (m : Mounter) (st : HostState)
    (mp : String) (h : lookupFile st.metadataFiles (nbdFilePath m mp) = none) :
    (disconnectNBD m st mp).2 = some .metadataMismatch ∧
    ∀ b : Bool, (Unmount m (some b) st mp).2 = none := by
  constructor
  · simp [disconnectNBD, h]
  · intro b
    cases b <;> rfl

theorem disconnectNBD_mismatch_witness :
    (disconnectNBD defaultMounter ⟨[], [], [], [], []⟩ "/tmp/qimi/mounts/a.mount").2
        = some .metadataMismatch ∧
    (Unmount defaultMounter (some true) ⟨[], [], [], [], []⟩ "/tmp/qimi/mounts/a.mount").2
        = none :=
  ⟨(disconnectNBD_reports_metadata_mismatch defaultMounter ⟨[], [], [], [], []⟩
      "/tmp/qimi/mounts/a.mount" (by decide)).1,
   (disconnectNBD_reports_metadata_mismatch defaultMounter ⟨[], [], [], [], []⟩
      "/tmp/qimi/mounts/a.mount" (by decide)).2 true⟩

/-- C9: `Unmount` removes the mount-point directory exactly when the
post-unmount directory read succeeds and reports it empty; a non-empty
directory (and a failed read, which additionally surfaces an error) leaves
the directory intact — it is never force-removed. -/
theorem unmount_removes_dir_only_if_empty (m : Mounter) (rd : Option Bool)
    (st : HostState) (mp : String) :
    (Unmount m rd st mp).1.mountDirs =
      (if rd = some true then st.mountDirs.filter (fun p => p ≠ mp) else st.mountDirs) ∧
    ((Unmount m rd st mp).2 = none ↔ rd ≠ none) := by
  cases rd with
  | none => simp [Unmount, disconnectNBD_mountDirs]
  | some b => cases b <;> simp [Unmount, disconnectNBD_mountDirs]

/-- Failing environment for the rollback claim: a free device is found, the
connect succeeds, and the partition probe fails. -/
def env1 : MountEnv := ⟨some "/dev/nbd0", true, false, .ok "/dev/nbd0p1", true, true, some true⟩

/-- C1 (code bug): when the partition probe fails after a successful device
connect, `Mount` returns the error and removes the created mount-point
directory, but the connected device is NOT disconnected: the rollback calls
`m.disconnectNBD(nbdDevice)` with the device path, `disconnectNBD` looks for
an association record named after it — which never exists before the final
metadata write — and returns without issuing any disconnect. -/
theorem mount_failure_leaves_device_connected :
    (MountWithPartition defaultMounter env1 true ⟨[], [], [], [], []⟩ "/images/disk.qcow2").2
      = .error .probeFailed ∧
    (MountWithPartition defaultMounter env1 true ⟨[], [], [], [], []⟩ "/images/disk.qcow2").1
      = ⟨["/dev/nbd0"], [], [], [], []⟩ := by decide

/-! ## Claim theorems: namespace setup and teardown -/

theorem cleanupStep_issued (env : CleanupEnv) (table : Option String) (mp : String)
    (acc : CleanupRun) (m : MountNamespace) :
    (cleanupStep env table mp acc m).issued =
      acc.issued ++
        (if strStartsWith (mp ++ trimLeading m.target "/") mp &&
            isMounted table (mp ++ trimLeading m.target "/") then
          [mp ++ trimLeading m.target "/"] else []) := by
  unfold cleanupStep
  by_cases h1 : strStartsWith (mp ++ trimLeading m.target "/") mp
  · by_cases h2 : isMounted table (mp ++ trimLeading m.target "/")
    · cases hs : env.stdOk (mp ++ trimLeading m.target "/") <;>
        cases hl : env.lazyOk (mp ++ trimLeading m.target "/") <;>
        simp [h1, h2, hs, hl]
    · simp [h1, h2]
  · simp [h1]

theorem cleanup_foldl_issued (env : CleanupEnv) (table : Option String) (mp : String)
    (l : List MountNamespace) (acc : CleanupRun) :
    (l.foldl (cleanupStep env table mp) acc).issued =
      acc.issued ++
        l.filterMap (fun m =>
          if strStartsWith (mp ++ trimLeading m.target "/") mp &&
              isMounted table (mp ++ trimLeading m.target "/") then
            some (mp ++ trimLeading m.target "/") else none) := by
  induction l generalizing acc with
  | nil => simp
  | cons m rest ih =>
      rw [List.foldl_cons, ih, List.filterMap_cons]
      rw [cleanupStep_issued]
      by_cases h : strStartsWith (mp ++ trimLeading m.target "/") mp &&
          isMounted table (mp ++ trimLeading m.target "/")
      · simp [h]
      · simp [h]

/-- C4: teardown rejects every mount point failing the safety checks before
issuing any unmount, and on every accepted mount point each issued unmount
target extends the slash-terminated mount point, so teardown never reaches
outside the mount point's subtree. -/
theorem cleanup_rejects_unsafe_and_stays_inside (mp : String) (table : Option String)
    (env : CleanupEnv) :
    (mountPointRejected mp = true → ∃ e, CleanupMountNamespace env table mp = .error e) ∧
    (∀ r, CleanupMountNamespace env table mp = .ok r →
      ∀ t ∈ r.issued, ∃ rest, t = slashTerm mp ++ rest) := by
  constructor
  · intro h
    unfold CleanupMountNamespace
    by_cases h1 : (mp = "" || mp = "/" || mp = "/dev" || mp = "/proc" || mp = "/sys") = true
    · exact ⟨.invalidMountPoint, by rw [if_pos h1]⟩
    · have h' := h
      unfold mountPointRejected at h'
      have h2 : (!strStartsWith mp "/tmp/" && !strStartsWith mp "/mnt/") = true := by
        cases hx : (mp = "" || mp = "/" || mp = "/dev" || mp = "/proc" || mp = "/sys") with
        | true => exact absurd hx h1
        | false => rw [hx] at h'; simpa using h'
      exact ⟨.unsafeMountPoint, by rw [if_neg h1, if_pos h2]⟩
  · intro r hr t ht
    unfold CleanupMountNamespace at hr
    by_cases h1 : (mp = "" || mp = "/" || mp = "/dev" || mp = "/proc" || mp = "/sys") = true
    · rw [if_pos h1] at hr; cases hr
    · rw [if_neg h1] at hr
      by_cases h2 : (!strStartsWith mp "/tmp/" && !strStartsWith mp "/mnt/") = true
      · rw [if_pos h2] at hr; cases hr
      · rw [if_neg h2] at hr
        have hre := Except.ok.inj hr
        subst hre
        rw [cleanup_foldl_issued] at ht
        simp only [List.nil_append, List.mem_filterMap] at ht
        rcases ht with ⟨m, _, hm⟩
        by_cases hg : (strStartsWith (slashTerm mp ++ trimLeading m.target "/") (slashTerm mp) &&
            isMounted table (slashTerm mp ++ trimLeading m.target "/")) = true
        · rw [if_pos hg] at hm
          exact ⟨trimLeading m.target "/", (Option.some.inj hm).symm⟩
        · rw [if_neg hg] at hm
          cases hm

theorem cleanup_safety_witness :
    ∃ e, CleanupMountNamespace ⟨fun _ => true, fun _ => true⟩ none "/dev" = .error e :=
  (cleanup_rejects_unsafe_and_stays_inside "/dev" none ⟨fun _ => true, fun _ => true⟩).1
    (by decide)

theorem cleanupStep_none (env : CleanupEnv) (mp : String) (acc : CleanupRun)
    (m : MountNamespace) : cleanupStep env none mp acc m = acc := by
  unfold cleanupStep
  by_cases h1 : strStartsWith (mp ++ trimLeading m.target "/") mp = true
  · simp [h1, isMounted]
  · simp [h1]

theorem foldl_cleanupStep_none (env : CleanupEnv) (mp : String) (l : List MountNamespace)
    (acc : CleanupRun) : l.foldl (cleanupStep env none mp) acc = acc := by
  induction l generalizing acc with
  | nil => rfl
  | cons m rest ih => rw [List.foldl_cons, cleanupStep_none]; exact ih acc

/-- C10: when `/proc/mounts` cannot be read, `isMounted` reports every target
as not mounted, so teardown of any accepted mount point issues no unmount at
all and still returns success. -/
theorem unreadable_mount_table_makes_teardown_noop (mp : String) (env : CleanupEnv)
    (h : mountPointRejected mp = false) :
    CleanupMountNamespace env none mp = .ok ⟨[], []⟩ := by
  have h1 : (mp = "" || mp = "/" || mp = "/dev" || mp = "/proc" || mp = "/sys") = false := by
    have h' := h
    unfold mountPointRejected at h'
    cases hx : (mp = "" || mp = "/" || mp = "/dev" || mp = "/proc" || mp = "/sys") with
    | false => rfl
    | true => rw [hx] at h'; simp at h'
  have h2 : (!strStartsWith mp "/tmp/" && !strStartsWith mp "/mnt/") = false := by
    have h' := h
    unfold mountPointRejected at h'
    rw [h1] at h'
    simpa using h'
  unfold CleanupMountNamespace
  rw [if_neg (by simp [h1]), if_neg (by simp [h2])]
  simp only [foldl_cleanupStep_none]

theorem unreadable_mount_table_witness :
    CleanupMountNamespace ⟨fun _ => false, fun _ => false⟩ none "/tmp/qimi/mounts/a.mount"
      = .ok ⟨[], []⟩ :=
  unreadable_mount_table_makes_teardown_noop "/tmp/qimi/mounts/a.mount"
    ⟨fun _ => false, fun _ => false⟩ (by decide)

theorem setup_foldl (mkdirOk : String → Bool) (mp : String) (l : List MountNamespace)
    (acc : List (List String)) :
    l.foldl (fun acc m =>
        let target := mp ++ m.target
        if mkdirOk target then acc ++ [mountCmdArgs m target] else acc) acc =
      acc ++ (l.filter (fun m => mkdirOk (mp ++ m.target))).map
        (fun m => mountCmdArgs m (mp ++ m.target)) := by
  induction l generalizing acc with
  | nil => simp
  | cons m rest ih =>
      rw [List.foldl_cons]
      by_cases hm : mkdirOk (mp ++ m.target) = true
      · rw [ih]
        simp [List.filter_cons, hm]
      · rw [ih]
        simp [List.filter_cons, hm]

theorem filterMap_guard_eq (table : Option String) (mp : String) (l : List MountNamespace) :
    l.filterMap (fun m =>
      if strStartsWith (mp ++ trimLeading m.target "/") mp &&
          isMounted table (mp ++ trimLeading m.target "/") then
        some (mp ++ trimLeading m.target "/") else none) =
    (l.map (fun m => mp ++ trimLeading m.target "/")).filter (isMounted table) := by
  induction l with
  | nil => rfl
  | cons m rest ih =>
      simp only [List.filterMap_cons, List.map_cons, List.filter_cons, strStartsWith_append,
        Bool.true_and] at ih ⊢
      rw [ih]
      by_cases hm : isMounted table (mp ++ trimLeading m.target "/") = true
      · simp [hm]
      · simp [hm]

/-- C8: the namespace mount set is exactly the four ordered entries
proc→/proc, sysfs→/sys, recursive-bind /dev→/dev, tmpfs→/tmp; setup issues
the matching mount commands in that order (a failed target mkdir skips only
that entry); teardown on an accepted mount point succeeds with its issued
unmount targets being exactly these entries in exact reverse order filtered
by live mountedness — independent of every per-entry unmount outcome, so all
entries are always attempted. -/
theorem namespace_mount_set_order (mp : String) (table : Option String)
    (env : CleanupEnv) (mkdirOk : String → Bool)
    (h : mountPointRejected mp = false) :
    MountNamespaces.map (fun m => (m.source, m.target, m.fstype)) =
      [("none", "/proc", "proc"), ("none", "/sys", "sysfs"),
       ("/dev", "/dev", "rbind"), ("tmpfs", "/tmp", "tmpfs")] ∧
    setupMountNamespace mkdirOk mp =
      (MountNamespaces.filter (fun m => mkdirOk (mp ++ m.target))).map
        (fun m => mountCmdArgs m (mp ++ m.target)) ∧
    ∃ r, CleanupMountNamespace env table mp = .ok r ∧
      r.issued = (MountNamespaces.reverse.map
          (fun m => slashTerm mp ++ trimLeading m.target "/")).filter (isMounted table) := by
  have h1 : (mp = "" || mp = "/" || mp = "/dev" || mp = "/proc" || mp = "/sys") = false := by
    have h' := h
    unfold mountPointRejected at h'
    cases hx : (mp = "" || mp = "/" || mp = "/dev" || mp = "/proc" || mp = "/sys") with
    | false => rfl
    | true => rw [hx] at h'; simp at h'
  have h2 : (!strStartsWith mp "/tmp/" && !strStartsWith mp "/mnt/") = false := by
    have h' := h
    unfold mountPointRejected at h'
    rw [h1] at h'
    simpa using h'
  refine ⟨rfl, ?_, ?_⟩
  · unfold setupMountNamespace
    simpa using setup_foldl mkdirOk mp MountNamespaces []
  · unfold CleanupMountNamespace
    rw [if_neg (by simp [h1]), if_neg (by simp [h2])]
    refine ⟨_, rfl, ?_⟩
    rw [cleanup_foldl_issued, filterMap_guard_eq]
    simp

theorem namespace_mount_set_order_witness :
    ∃ r, CleanupMountNamespace ⟨fun _ => false, fun _ => false⟩
        (some "a /tmp/m/proc x\na /tmp/m/sys x\na /tmp/m/dev x\na /tmp/m/tmp x")
        "/tmp/m" = .ok r ∧
      r.issued = ["/tmp/m/tmp", "/tmp/m/dev", "/tmp/m/sys", "/tmp/m/proc"] := by
  obtain ⟨-, -, r, hok, hiss⟩ :=
    namespace_mount_set_order "/tmp/m"
      (some "a /tmp/m/proc x\na /tmp/m/sys x\na /tmp/m/dev x\na /tmp/m/tmp x")
      ⟨fun _ => false, fun _ => false⟩ (fun _ => true) (by decide)
  exact ⟨r, hok, by rw [hiss]; decide⟩

/-! ## Claim theorems: partition selection -/

theorem flpLoop_cons_some (sizes : String → Option Int) (q : PartitionInfo)
    (rest : List PartitionInfo) (bs : Int) (bp : PartitionInfo) (sq : Int)
    (hq : sizes q.path = some sq) :
    flpLoop sizes (q :: rest) (bs, bp) =
      if sq > bs then flpLoop sizes rest (sq, q) else flpLoop sizes rest (bs, bp) := by
  simp only [flpLoop, hq]

theorem flpLoop_cons_none (sizes : String → Option Int) (q : PartitionInfo)
    (rest : List PartitionInfo) (bs : Int) (bp : PartitionInfo)
    (hq : sizes q.path = none) :
    flpLoop sizes (q :: rest) (bs, bp) = flpLoop sizes rest (bs, bp) := by
  simp only [flpLoop, hq]

theorem flpLoop_fst_ge (sizes : String → Option Int) :
    ∀ (l : List PartitionInfo) (acc : Int × PartitionInfo),
      acc.1 ≤ (flpLoop sizes l acc).1
  | [], _ => le_refl _
  | q :: rest, (bs, bp) => by
      cases hq : sizes q.path with
      | none =>
          rw [flpLoop_cons_none sizes q rest bs bp hq]
          exact flpLoop_fst_ge sizes rest (bs, bp)
      | some sq =>
          rw [flpLoop_cons_some sizes q rest bs bp sq hq]
          by_cases hgt : sq > bs
          · rw [if_pos hgt]
            exact le_trans (le_of_lt hgt) (flpLoop_fst_ge sizes rest (sq, q))
          · rw [if_neg hgt]
            exact flpLoop_fst_ge sizes rest (bs, bp)

theorem flpLoop_le (sizes : String → Option Int) :
    ∀ (l : List PartitionInfo) (acc : Int × PartitionInfo) (p : PartitionInfo),
      p ∈ l → ∀ s : Int, sizes p.path = some s → s ≤ (flpLoop sizes l acc).1
  | [], _, p, hp, _, _ => absurd hp (List.not_mem_nil p)
  | q :: rest, (bs, bp), p, hp, s, hs => by
      rcases List.mem_cons.mp hp with rfl | hrest
      · rw [flpLoop_cons_some sizes p rest bs bp s hs]
        by_cases hgt : s > bs
        · rw [if_pos hgt]
          exact flpLoop_fst_ge sizes rest (s, p)
        · rw [if_neg hgt]
          exact le_trans (le_of_not_lt hgt) (flpLoop_fst_ge sizes rest (bs, bp))
      · cases hq : sizes q.path with
        | none =>
            rw [flpLoop_cons_none sizes q rest bs bp hq]
            exact flpLoop_le sizes rest (bs, bp) p hrest s hs
        | some sq =>
            rw [flpLoop_cons_some sizes q rest bs bp sq hq]
            by_cases hgt : sq > bs
            · rw [if_pos hgt]
              exact flpLoop_le sizes rest (sq, q) p hrest s hs
            · rw [if_neg hgt]
              exact flpLoop_le sizes rest (bs, bp) p hrest s hs

theorem flpLoop_achieves (sizes : String → Option Int) :
    ∀ (l : List PartitionInfo) (acc : Int × PartitionInfo),
      flpLoop sizes l acc = acc ∨
      ((flpLoop sizes l acc).2 ∈ l ∧
        sizes (flpLoop sizes l acc).2.path = some (flpLoop sizes l acc).1)
  | [], _ => Or.inl rfl
  | q :: rest, (bs, bp) => by
      cases hq : sizes q.path with
      | none =>
          rw [flpLoop_cons_none sizes q rest bs bp hq]
          rcases flpLoop_achieves sizes rest (bs, bp) with h | ⟨hm, hsz⟩
          · exact Or.inl h
          · exact Or.inr ⟨List.mem_cons_of_mem q hm, hsz⟩
      | some sq =>
          rw [flpLoop_cons_some sizes q rest bs bp sq hq]
          by_cases hgt : sq > bs
          · rw [if_pos hgt]
            rcases flpLoop_achieves sizes rest (sq, q) with h | ⟨hm, hsz⟩
            · rw [h]
              exact Or.inr ⟨List.mem_cons_self q rest, hq⟩
            · exact Or.inr ⟨List.mem_cons_of_mem q hm, hsz⟩
          · rw [if_neg hgt]
            rcases flpLoop_achieves sizes rest (bs, bp) with h | ⟨hm, hsz⟩
            · exact Or.inl h
            · exact Or.inr ⟨List.mem_cons_of_mem q hm, hsz⟩

theorem flpLoop_all_none (sizes : String → Option Int) :
    ∀ (l : List PartitionInfo) (acc : Int × PartitionInfo),
      (∀ p ∈ l, sizes p.path = none) → flpLoop sizes l acc = acc
  | [], _, _ => rfl
  | q :: rest, (bs, bp), h => by
      rw [flpLoop_cons_none sizes q rest bs bp (h q (List.mem_cons_self q rest))]
      exact flpLoop_all_none sizes rest (bs, bp)
        (fun p hp => h p (List.mem_cons_of_mem q hp))

theorem findLargestPartition_cons_ok (sizes : String → Option Int) (p0 : PartitionInfo)
    (l : List PartitionInfo)
    (h : (flpLoop sizes (p0 :: l) (-1, ⟨0, "", ""⟩)).1 ≠ -1) :
    findLargestPartition sizes (p0 :: l) =
      .ok (flpLoop sizes (p0 :: l) (-1, ⟨0, "", ""⟩)).2 := by
  simp only [findLargestPartition]
  rw [if_neg (by simp), if_neg h]

theorem findLargestPartition_cons_err (sizes : String → Option Int) (p0 : PartitionInfo)
    (l : List PartitionInfo)
    (h : (flpLoop sizes (p0 :: l) (-1, ⟨0, "", ""⟩)).1 = -1) :
    findLargestPartition sizes (p0 :: l) = .error () := by
  simp only [findLargestPartition]
  rw [if_neg (by simp), if_pos h]

/-- C6: in auto-detection, whenever the discovered set (which may also hold
non-root-like partitions, e.g. a vfat boot partition) contains two or more
root-like partitions all of one filesystem type: when every one of those
candidates' byte sizes is determined, selection returns the path of a
candidate of maximal byte size; when no candidate's size can be determined,
it fails with the ambiguous-selection error naming all candidates. -/
theorem partition_tiebreak_largest (nbd : String) (pe : Nat → Bool) (dhf : Bool)
    (sizes : String → Option Int) (l : List PartitionInfo)
    (r0 r1 : PartitionInfo) (rrest : List PartitionInfo)
    (hfil : l.filter isRootLike = r0 :: r1 :: rrest)
    (hsame : ∀ p ∈ r1 :: rrest, lowerStr p.fstype = lowerStr r0.fstype) :
    ((∀ p ∈ r0 :: r1 :: rrest, ∃ s : Int, sizes p.path = some s ∧ 0 ≤ s) →
      ∃ p, p ∈ r0 :: r1 :: rrest ∧
        GetPartitionDevice nbd 0 pe (l, dhf) sizes = .ok p.path ∧
        ∀ q ∈ r0 :: r1 :: rrest, ∀ sq sp : Int,
          sizes q.path = some sq → sizes p.path = some sp → sq ≤ sp) ∧
    ((∀ p ∈ r0 :: r1 :: rrest, sizes p.path = none) →
      GetPartitionDevice nbd 0 pe (l, dhf) sizes =
        .error (.ambiguousSelection (lowerStr r0.fstype) (r0 :: r1 :: rrest))) := by
  cases l with
  | nil => simp at hfil
  | cons a l1 =>
      cases l1 with
      | nil =>
          have hlen := congrArg List.length hfil
          have hle1 : (List.filter isRootLike [a]).length ≤ 1 := by
            simpa using List.length_filter_le isRootLike [a]
          simp only [List.length_cons] at hlen
          omega
      | cons b t =>
          have hall :
              ((r1 :: rrest).all (fun p => lowerStr p.fstype == lowerStr r0.fstype)) = true := by
            rw [List.all_eq_true]
            intro p hp
            exact beq_iff_eq.mpr (hsame p hp)
          have hget : GetPartitionDevice nbd 0 pe (a :: b :: t, dhf) sizes =
              match findLargestPartition sizes (r0 :: r1 :: rrest) with
              | .ok largest => .ok largest.path
              | .error _ =>
                  .error (.ambiguousSelection (lowerStr r0.fstype) (r0 :: r1 :: rrest)) := by
            unfold GetPartitionDevice
            rw [if_neg (by omega)]
            simp only [hfil]
            rw [if_pos hall]
          constructor
          · intro hs
            obtain ⟨s0, hs0, h0⟩ := hs r0 (List.mem_cons_self r0 (r1 :: rrest))
            have hle := flpLoop_le sizes (r0 :: r1 :: rrest) (-1, ⟨0, "", ""⟩) r0
              (List.mem_cons_self r0 (r1 :: rrest)) s0 hs0
            have hne : (flpLoop sizes (r0 :: r1 :: rrest) (-1, ⟨0, "", ""⟩)).1 ≠ -1 := by
              intro hcon
              rw [hcon] at hle
              omega
            rcases flpLoop_achieves sizes (r0 :: r1 :: rrest) (-1, ⟨0, "", ""⟩) with
              hacc | ⟨hm, hsz⟩
            · rw [hacc] at hne
              simp at hne
            · refine ⟨(flpLoop sizes (r0 :: r1 :: rrest) (-1, ⟨0, "", ""⟩)).2, hm, ?_, ?_⟩
              · rw [hget, findLargestPartition_cons_ok sizes r0 (r1 :: rrest) hne]
              · intro q hq sq sp hq' hp'
                have hsq := flpLoop_le sizes (r0 :: r1 :: rrest) (-1, ⟨0, "", ""⟩) q hq sq hq'
                rw [hsz] at hp'
                have hsp := Option.some.inj hp'
                omega
          · intro hn
            rw [hget, findLargestPartition_cons_err sizes r0 (r1 :: rrest)
              (by rw [flpLoop_all_none sizes (r0 :: r1 :: rrest) (-1, ⟨0, "", ""⟩) hn])]

/-- Byte sizes for the spec's tie-break example: a 10 GiB and a 20 GiB xfs
partition. -/
def sizesXfs : String → Option Int := fun path =>
  if path = "/dev/nbd0p2" then some 10737418240
  else if path = "/dev/nbd0p3" then some 21474836480
  else none

theorem partition_tiebreak_witness :
    ∃ p, p ∈ [(⟨2, "/dev/nbd0p2", "xfs"⟩ : PartitionInfo), ⟨3, "/dev/nbd0p3", "xfs"⟩] ∧
      GetPartitionDevice "/dev/nbd0" 0 (fun _ => false)
        ([⟨1, "/dev/nbd0p1", "vfat"⟩, ⟨2, "/dev/nbd0p2", "xfs"⟩,
          ⟨3, "/dev/nbd0p3", "xfs"⟩], false) sizesXfs
        = .ok p.path ∧
      ∀ q ∈ [(⟨2, "/dev/nbd0p2", "xfs"⟩ : PartitionInfo), ⟨3, "/dev/nbd0p3", "xfs"⟩],
        ∀ sq sp : Int, sizesXfs q.path = some sq → sizesXfs p.path = some sp → sq ≤ sp :=
  (partition_tiebreak_largest "/dev/nbd0" (fun _ => false) false sizesXfs
    [⟨1, "/dev/nbd0p1", "vfat"⟩, ⟨2, "/dev/nbd0p2", "xfs"⟩, ⟨3, "/dev/nbd0p3", "xfs"⟩]
    ⟨2, "/dev/nbd0p2", "xfs"⟩ ⟨3, "/dev/nbd0p3", "xfs"⟩ [] (by decide) (by decide)).1
    (by
      intro p hp
      rcases List.mem_cons.mp hp with rfl | hp
      · exact ⟨10737418240, by decide, by decide⟩
      · rcases List.mem_cons.mp hp with rfl | hp
        · exact ⟨21474836480, by decide, by decide⟩
        · cases hp)

theorem unmount_removes_dir_witness :
    (Unmount defaultMounter (some false) ⟨[], [], ["/tmp/qimi/mounts/b.mount"], [], []⟩
        "/tmp/qimi/mounts/b.mount").1.mountDirs =
      (if (some false : Option Bool) = some true then
        (["/tmp/qimi/mounts/b.mount"] : List String).filter
          (fun p => p ≠ "/tmp/qimi/mounts/b.mount")
      else ["/tmp/qimi/mounts/b.mount"]) ∧
    ((Unmount defaultMounter (some false) ⟨[], [], ["/tmp/qimi/mounts/b.mount"], [], []⟩
        "/tmp/qimi/mounts/b.mount").2 = none ↔ (some false : Option Bool) ≠ none) :=
  unmount_removes_dir_only_if_empty defaultMounter (some false)
    ⟨[], [], ["/tmp/qimi/mounts/b.mount"], [], []⟩ "/tmp/qimi/mounts/b.mount"

end Qimi
